import Mathlib

/-!
# Verification of the Word interop operation service

A shallow embedding of the operation service in `src/word/word-service.ts` and of
the tool handlers in `src/tools/text-tools.ts` and `src/tools/image-tools.ts`,
together with proofs of the behavioural properties stated in the specification.

The service drives an externally owned object graph (the word processor's
automation model).  The embedding models exactly the slice of that graph the
service touches: tables (lists of rows of cell texts), inline shapes (height,
width, aspect-ratio lock flag), the selection (a start offset into the document
text) and the selection font's underline style.  Service methods become
state-passing functions `... → WDoc → Except WErr ...`; an `Except.error` result
means the method threw before returning, and since every explicit validation in
the source precedes any property write, an error result carries no mutated
state.  Where a claim is about *which* external calls a method performs, the
method is additionally modelled as the list of calls it issues.
-/

namespace MsWord

/-- A table of the active document: each row is the list of its cell texts
(mirrors the slice of `Word.Table` the service touches: `Rows.Count`,
`Columns.Count`, `Rows.Item`, `Rows.Add`, `Cell`). -/
structure WTable where
  rows : List (List String)
deriving Repr, DecidableEq

instance : Inhabited WTable := ⟨⟨[]⟩⟩

/-- `Rows.Count` of the table. -/
def WTable.rowCount (t : WTable) : Nat := t.rows.length

/-- `Columns.Count` of the table. -/
def WTable.colCount (t : WTable) : Nat := (t.rows.headD []).length

/-- An inline shape (picture): the three properties `setInlinePictureSize`
touches.  The aspect-ratio lock flag uses the external model's encoding
(msoTrue = -1, msoFalse = 0). -/
structure WShape where
  height : ℚ
  width : ℚ
  lockAspect : Int
deriving Repr, DecidableEq

instance : Inhabited WShape := ⟨⟨0, 0, 0⟩⟩

/-- A section of the document, as far as `getHeaderFooter` observes it: for
each of the three header/footer types (primary = 1, first page = 2,
even pages = 3), whether the header (respectively footer) of that type reports
`Exists` under the document's current settings. -/
structure WSection where
  headerExists : List Bool
  footerExists : List Bool
deriving Repr, DecidableEq

/-- The active document together with its window's selection state, as far as
the modelled operations observe it: the document text, the (collapsed)
selection start offset, the selection font's underline style, the `Tables`,
`InlineShapes` and `Sections` collections, and the `Paragraphs` collection
(each paragraph represented by the start offset of its range, which is what
`selectParagraph`'s `Range.Select()` observes). -/
structure WDoc where
  text : List Char
  selStart : Nat
  fontUnderline : Int
  tables : List WTable
  shapes : List WShape
  sections : List WSection
  paragraphStarts : List Nat
deriving Repr, DecidableEq

/-- Errors thrown by service methods.
  * `outOfRange what idx` — an explicit bounds-check `throw new Error("... index
    N is out of bounds ...")` in the service code itself;
  * `comErr msg` — an error raised by the external object model (a COM call
    failing), which the service code did not anticipate with a check;
  * `otherThrow msg` — an explicit throw in the service code other than an
    index bounds check (e.g. the header/footer type and existence checks);
  * `wrapped opName cause` — the generic `catch (error) { throw new Error(
    "Failed to <op>. Error: " + error) }` at the boundary of each service
    method, which re-throws any inner error wrapped with the operation name. -/
inductive WErr where
  | outOfRange (what : String) (idx : Int)
  | comErr (msg : String)
  | otherThrow (msg : String)
  | wrapped (opName : String) (cause : WErr)
deriving Repr, DecidableEq

/-- Whether an error is (a wrapping of) one of the service code's explicit
out-of-range throws, as opposed to a generic external-model failure or another
explicit throw. -/
def WErr.isOutOfRange : WErr → Bool
  | .outOfRange _ _ => true
  | .comErr _ => false
  | .otherThrow _ => false
  | .wrapped _ e => e.isOutOfRange

/-- The `catch`/re-throw at the boundary of every service method: a successful
result passes through, any error is wrapped with the operation's name. -/
def wrapErr (opName : String) : Except WErr α → Except WErr α
  | .ok a => .ok a
  | .error e => .error (.wrapped opName e)

/-- The uniform tool result produced by every tool handler: human-readable text
plus the error flag. -/
structure ToolResult where
  message : String
  isError : Bool
deriving Repr, DecidableEq

/-- `Tables.Item(tableIndex)` on the active document (1-based). -/
def WDoc.tableAt (d : WDoc) (t : Int) : WTable := d.tables.getD (t.toNat - 1) ⟨[]⟩

/-- `InlineShapes.Item(shapeIndex)` on the active document (1-based). -/
def WDoc.shapeAt (d : WDoc) (s : Int) : WShape := d.shapes.getD (s.toNat - 1) default

/-! ## Character formatting: toggleUnderline (word-service.ts 313-328) -/

/-- `toggleUnderline(underlineStyle)`: reads `Selection.Font.Underline`; if it
equals the requested style, writes `0` (wdUnderlineNone), otherwise writes the
requested style.  (The surrounding app acquisition and generic re-throw touch
no document state and are omitted at this level.) -/
def toggleUnderline (underlineStyle : Int) (d : WDoc) : WDoc :=
  if d.fontUnderline = underlineStyle then { d with fontUnderline := 0 }
  else { d with fontUnderline := underlineStyle }

/-! ## Text deletion: deleteText (word-service.ts 212-230) -/

/-- A call the service issues against the window's `Selection` object. -/
inductive SelCall where
  | moveStart (unit : Int) (count : Int)
  | delete (unit : Int) (count : Nat)
deriving Repr, DecidableEq

/-- The calls `deleteText(count, unit)` issues against the Selection, read off
the source: `count > 0` issues `Selection.Delete(unit, count)`; `count < 0`
issues `Selection.MoveStart(unit, count)` then
`Selection.Delete(unit, Math.abs(count))`; `count = 0` issues nothing. -/
def deleteTextCalls (count : Int) (unit : Int) : List SelCall :=
  if count > 0 then [.delete unit count.toNat]
  else if count < 0 then [.moveStart unit count, .delete unit count.natAbs]
  else []

/-- Semantics of the two Selection calls for character units on a collapsed
selection, per the external model's documented behaviour: `MoveStart` moves the
selection start by `count` characters, clamped to the document;
`Delete(unit, n)` removes `n` characters forward from the selection start. -/
def applySelCall (d : WDoc) : SelCall → WDoc
  | .moveStart _ c =>
      { d with selStart := min (((d.selStart : Int) + c).toNat) d.text.length }
  | .delete _ n =>
      { d with text := d.text.take d.selStart ++ d.text.drop (d.selStart + n) }

/-- `deleteText(count, unit)`: the net document effect of the issued calls. -/
def deleteText (count : Int) (unit : Int) (d : WDoc) : WDoc :=
  (deleteTextCalls count unit).foldl applySelCall d

/-- text-tools.ts `deleteTextTool` (handler, after schema validation): calls the
service and reports a success text; the handler sets the error flag only in its
`catch`, whose sole source at this document level does not arise (automation
failures are outside the document model). -/
def deleteTextTool (count : Int) (unit : Int) (d : WDoc) : ToolResult × WDoc :=
  ({ message := "Successfully deleted.", isError := false }, deleteText count unit d)

/-! ## Find and replace (word-service.ts 241-277, text-tools.ts 59-82) -/

/-- Case folding used by the external search when `MatchCase` is false. -/
def foldCase (s : List Char) : List Char := s.map Char.toLower

/-- Whether `pat` occurs at the start of `s`. -/
def startsWith : List Char → List Char → Bool
  | [], _ => true
  | _ :: _, [] => false
  | a :: as, b :: bs => a == b && startsWith as bs

/-- Whether `pat` occurs anywhere in `s` (contiguously). -/
def occursIn (pat : List Char) : List Char → Bool
  | [] => startsWith pat []
  | c :: rest => startsWith pat (c :: rest) || occursIn pat rest

/-- `findAndReplace(...)`: clears find/replacement formatting, sets the search
parameters (forward, wrap-around), executes with the replace option
(`wdReplaceAll = 2` when `replaceAll`, else `wdReplaceOne = 1`) and returns the
`found` boolean of `Find.Execute`.  `Execute` is external; its `found` result
is modelled as substring occurrence of the search text in the document text
(case-folded unless `matchCase`); the text mutation it performs and the
whole-word refinement do not bear on any claim and are not modelled. -/
def findAndReplace (findText replaceText : List Char)
    (matchCase matchWholeWord replaceAll : Bool) (d : WDoc) : Bool :=
  let hay := if matchCase then d.text else foldCase d.text
  let ndl := if matchCase then findText else foldCase findText
  occursIn ndl hay

/-- text-tools.ts `findReplaceTool` (handler, after schema validation): calls
the service and returns a result whose error flag is
`!found && args.replaceAll` — no exception is thrown on the not-found path. -/
def findReplaceTool (findText replaceText : List Char)
    (matchCase matchWholeWord replaceAll : Bool) (d : WDoc) : ToolResult :=
  let found := findAndReplace findText replaceText matchCase matchWholeWord replaceAll d
  { message := if found then "Successfully found and replaced text." else "Text not found.",
    isError := !found && replaceAll }

/-! ## Tables (word-service.ts 467-526) -/

/-- The error message the external model produces for a nonexistent cell. -/
def comCellMsg : String := "The requested member of the collection does not exist."

/-- `Table.Cell(rowIndex, colIndex)` (external object model behaviour): returns
the cell — here, its 0-based coordinates as a handle — when it exists, and
raises a COM error otherwise.  The service code performs no row/column bounds
check of its own. -/
def WTable.cell (t : WTable) (r c : Int) : Except WErr (Nat × Nat) :=
  if 1 ≤ r ∧ r ≤ (t.rows.length : Int) ∧ 1 ≤ c ∧
      c ≤ ((t.rows.getD (r.toNat - 1) []).length : Int) then
    .ok (r.toNat - 1, c.toNat - 1)
  else
    .error (.comErr comCellMsg)

/-- word-service.ts `getTableCell`: validates `tableIndex` against
`doc.Tables.Count` (throwing the out-of-range error when
`tableIndex <= 0 || tableIndex > Count`), resolves the table and the cell, and
re-throws any error wrapped.  Returns the resolved cell's coordinates
(table, row, column; 0-based) as the cell handle. -/
def getTableCell (tableIndex rowIndex colIndex : Int) (d : WDoc) :
    Except WErr (Nat × Nat × Nat) :=
  wrapErr "getTableCell" (
    if tableIndex ≤ 0 ∨ tableIndex > (d.tables.length : Int) then
      .error (.outOfRange "Table" tableIndex)
    else
      match (d.tableAt tableIndex).cell rowIndex colIndex with
      | .error e => .error e
      | .ok p => .ok (tableIndex.toNat - 1, p.1, p.2))

/-- `cell.Range.Text = text`: overwrite the resolved cell's text. -/
def WDoc.writeCell (d : WDoc) (ti ri ci : Nat) (txt : String) : WDoc :=
  let tb := d.tables.getD ti ⟨[]⟩
  let row := tb.rows.getD ri []
  { d with tables := d.tables.set ti ⟨tb.rows.set ri (row.set ci txt)⟩ }

/-- word-service.ts `setTableCellText`: resolves the cell via `getTableCell`,
overwrites its text, and re-throws any error wrapped with its own name. -/
def setTableCellText (tableIndex rowIndex colIndex : Int) (txt : String)
    (d : WDoc) : Except WErr WDoc :=
  wrapErr "setTableCellText" (
    match getTableCell tableIndex rowIndex colIndex d with
    | .error e => .error e
    | .ok p => .ok (d.writeCell p.1 p.2.1 p.2.2 txt))

/-- `Table.Rows.Add(BeforeRow?)` (external object model behaviour): with a
reference row — here its 1-based position `j` — the new empty row is inserted
before it; with no reference row, the new row is appended at the end. -/
def WTable.rowsAdd (t : WTable) (beforeRow : Option Nat) : WTable :=
  let newRow := List.replicate t.colCount ""
  match beforeRow with
  | none => ⟨t.rows ++ [newRow]⟩
  | some j => ⟨t.rows.take (j - 1) ++ newRow :: t.rows.drop (j - 1)⟩

/-- word-service.ts `insertTableRow`: validates `tableIndex` against
`doc.Tables.Count`; when `beforeRowIndex` is given, validates it against
`[1, Rows.Count + 1]` (`beforeRowIndex <= 0 || beforeRowIndex > Count + 1`
throws), resolves the reference row when `beforeRowIndex <= Rows.Count` and
passes `undefined` otherwise, and calls `Rows.Add`; when `beforeRowIndex` is
omitted, calls `Rows.Add()` with no reference row.  Any error is re-thrown
wrapped. -/
def insertTableRow (tableIndex : Int) (beforeRowIndex : Option Int) (d : WDoc) :
    Except WErr WDoc :=
  wrapErr "insertTableRow" (
    if tableIndex ≤ 0 ∨ tableIndex > (d.tables.length : Int) then
      .error (.outOfRange "Table" tableIndex)
    else
      let t := d.tableAt tableIndex
      match beforeRowIndex with
      | some i =>
          if i ≤ 0 ∨ i > (t.rowCount : Int) + 1 then
            .error (.outOfRange "Row" i)
          else
            let refRow : Option Nat :=
              if i ≤ (t.rowCount : Int) then some i.toNat else none
            .ok { d with tables := d.tables.set (tableIndex.toNat - 1) (t.rowsAdd refRow) }
      | none =>
          .ok { d with tables := d.tables.set (tableIndex.toNat - 1) (t.rowsAdd none) })

/-- `Table.Columns.Add(BeforeColumn?)` (external object model behaviour): with
a reference column — here its 1-based position `j` — a new empty column is
inserted before it in every row; with no reference column, a new empty column
is appended at the right end of every row. -/
def WTable.colsAdd (t : WTable) (beforeCol : Option Nat) : WTable :=
  match beforeCol with
  | none => ⟨t.rows.map (fun row => row ++ [""])⟩
  | some j => ⟨t.rows.map (fun row => row.take (j - 1) ++ "" :: row.drop (j - 1))⟩

/-- word-service.ts `insertTableColumn`: validates `tableIndex` against
`doc.Tables.Count`; when `beforeColIndex` is given, validates it against
`[1, Columns.Count + 1]` (`beforeColIndex <= 0 || beforeColIndex > Count + 1`
throws), resolves the reference column when `beforeColIndex <= Columns.Count`
and passes `undefined` otherwise, and calls `Columns.Add`; when
`beforeColIndex` is omitted, calls `Columns.Add()` with no reference column.
Any error is re-thrown wrapped. -/
def insertTableColumn (tableIndex : Int) (beforeColIndex : Option Int) (d : WDoc) :
    Except WErr WDoc :=
  wrapErr "insertTableColumn" (
    if tableIndex ≤ 0 ∨ tableIndex > (d.tables.length : Int) then
      .error (.outOfRange "Table" tableIndex)
    else
      let t := d.tableAt tableIndex
      match beforeColIndex with
      | some j =>
          if j ≤ 0 ∨ j > (t.colCount : Int) + 1 then
            .error (.outOfRange "Column" j)
          else
            let refCol : Option Nat :=
              if j ≤ (t.colCount : Int) then some j.toNat else none
            .ok { d with tables := d.tables.set (tableIndex.toNat - 1) (t.colsAdd refCol) }
      | none =>
          .ok { d with tables := d.tables.set (tableIndex.toNat - 1) (t.colsAdd none) })

/-- The default apply-flags bitmask word-service.ts `applyTableAutoFormat` uses
when the caller supplies none: `1+2+4+8+16+32+64+128+256`. -/
def defaultApplyFlags : Int := 1 + 2 + 4 + 8 + 16 + 32 + 64 + 128 + 256

/-- word-service.ts `applyTableAutoFormat`: validates `tableIndex` against
`doc.Tables.Count`, then calls the external `table.AutoFormat(formatName,
applyFormatting ?? defaultApplyFlags)`; the external call's arguments (the
style name-or-code and the effective flags) are the observable here, its visual
effect being entirely external.  Any error is re-thrown wrapped. -/
def applyTableAutoFormat (tableIndex : Int) (formatName : String ⊕ Int)
    (applyFormatting : Option Int) (d : WDoc) : Except WErr ((String ⊕ Int) × Int) :=
  wrapErr "applyTableAutoFormat" (
    if tableIndex ≤ 0 ∨ tableIndex > (d.tables.length : Int) then
      .error (.outOfRange "Table" tableIndex)
    else
      .ok (formatName, applyFormatting.getD defaultApplyFlags))

/-! ## Headers/footers and paragraph selection (word-service.ts 663-689, 832-844) -/

/-- The message of the explicit invalid-type throw in `getHeaderFooter`. -/
def invalidHFTypeMsg : String := "Invalid header/footer type. Use 1, 2, or 3."

/-- The message of the explicit does-not-exist throw in `getHeaderFooter`. -/
def hfMissingMsg : String :=
  "The requested header/footer type does not exist or is not active for this section."

/-- word-service.ts `getHeaderFooter`: validates `sectionIndex` against
`doc.Sections.Count` (throwing the out-of-range error when
`sectionIndex <= 0 || sectionIndex > Count`), resolves the section and its
header or footer collection, validates `headerFooterType` against `[1, 3]`,
resolves the item and throws when it does not report `Exists`; otherwise
returns the header/footer — here its 0-based (section, type) coordinates as a
handle.  Any error is re-thrown wrapped. -/
def getHeaderFooter (sectionIndex headerFooterType : Int) (isHeader : Bool)
    (d : WDoc) : Except WErr (Nat × Nat) :=
  wrapErr "getHeaderFooter" (
    if sectionIndex ≤ 0 ∨ sectionIndex > (d.sections.length : Int) then
      .error (.outOfRange "Section" sectionIndex)
    else
      let sec := d.sections.getD (sectionIndex.toNat - 1) ⟨[], []⟩
      let hfs := if isHeader then sec.headerExists else sec.footerExists
      if headerFooterType < 1 ∨ headerFooterType > 3 then
        .error (.otherThrow invalidHFTypeMsg)
      else if hfs.getD (headerFooterType.toNat - 1) false then
        .ok (sectionIndex.toNat - 1, headerFooterType.toNat - 1)
      else
        .error (.otherThrow hfMissingMsg))

/-- word-service.ts `selectParagraph`: validates `paragraphIndex` against
`doc.Paragraphs.Count` (throwing the out-of-range error when
`paragraphIndex <= 0 || paragraphIndex > Count`), then selects the resolved
paragraph's range (`paragraph.Range.Select()` — the selection moves to the
paragraph's start).  Any error is re-thrown wrapped. -/
def selectParagraph (paragraphIndex : Int) (d : WDoc) : Except WErr WDoc :=
  wrapErr "selectParagraph" (
    if paragraphIndex ≤ 0 ∨ paragraphIndex > (d.paragraphStarts.length : Int) then
      .error (.outOfRange "Paragraph" paragraphIndex)
    else
      .ok { d with selStart := d.paragraphStarts.getD (paragraphIndex.toNat - 1) 0 })

/-! ## Inline shapes (word-service.ts 609-650, image-tools.ts 38-57) -/

/-- A property assignment performed on the resolved inline shape. -/
inductive ShapeAssign where
  | lockAR (v : Int)
  | height (v : ℚ)
  | width (v : ℚ)
deriving Repr, DecidableEq

/-- The assignments word-service.ts `setInlinePictureSize` performs on the
resolved shape, read off the source: the original height and width are read
first, the aspect-ratio lock flag is always written
(`msoTrue = -1` when requested, else `msoFalse = 0`), then the size branch —
both dimensions positive with the lock requested compares the requested-to-
original ratios and writes only the dimension whose ratio is larger (the other
is left for the external model to auto-adjust); both positive without the lock
writes height then width; exactly one positive writes only that one; neither
positive writes no size dimension. -/
def setShapeSizeAssigns (heightPoints widthPoints : ℚ) (lockAspect : Bool)
    (sh : WShape) : List ShapeAssign :=
  let lockA : ShapeAssign := .lockAR (if lockAspect then -1 else 0)
  if heightPoints > 0 ∧ widthPoints > 0 then
    if lockAspect then
      let hRatio := heightPoints / sh.height
      let wRatio := widthPoints / sh.width
      if wRatio > hRatio then [lockA, .width widthPoints]
      else [lockA, .height heightPoints]
    else [lockA, .height heightPoints, .width widthPoints]
  else if heightPoints > 0 then [lockA, .height heightPoints]
  else if widthPoints > 0 then [lockA, .width widthPoints]
  else [lockA]

/-- Direct effect of one assignment on the shape record.  (With the lock set to
msoTrue the external model additionally auto-adjusts the other dimension; that
behaviour is external — the claims settled here are about which assignments the
service itself performs.) -/
def WShape.applyAssign (sh : WShape) : ShapeAssign → WShape
  | .lockAR v => { sh with lockAspect := v }
  | .height v => { sh with height := v }
  | .width v => { sh with width := v }

/-- word-service.ts `setInlinePictureSize`: validates `shapeIndex` against
`doc.InlineShapes.Count` (throwing the out-of-range error when
`shapeIndex <= 0 || shapeIndex > Count`), resolves the shape, performs the
assignments of `setShapeSizeAssigns`, and re-throws any error wrapped. -/
def setInlinePictureSize (shapeIndex : Int) (heightPoints widthPoints : ℚ)
    (lockAspect : Bool) (d : WDoc) : Except WErr WDoc :=
  wrapErr "setInlinePictureSize" (
    if shapeIndex ≤ 0 ∨ shapeIndex > (d.shapes.length : Int) then
      .error (.outOfRange "InlineShape" shapeIndex)
    else
      let sh := d.shapeAt shapeIndex
      let sh2 := (setShapeSizeAssigns heightPoints widthPoints lockAspect sh).foldl
        WShape.applyAssign sh
      .ok { d with shapes := d.shapes.set (shapeIndex.toNat - 1) sh2 })

/-- image-tools.ts `setInlinePictureSizeTool` (handler, after schema
validation): when neither dimension is positive, returns a non-error result
without calling the service at all; otherwise calls the service and flags an
error exactly when it threw.  The third component records whether the service
was called. -/
def setInlinePictureSizeTool (shapeIndex : Int) (heightPoints widthPoints : ℚ)
    (lockAspect : Bool) (d : WDoc) : ToolResult × WDoc × Bool :=
  if heightPoints ≤ 0 ∧ widthPoints ≤ 0 then
    ({ message := "No size change specified (height and width were not positive values).",
       isError := false }, d, false)
  else
    match setInlinePictureSize shapeIndex heightPoints widthPoints lockAspect d with
    | .ok d2 => ({ message := "Successfully resized inline picture.", isError := false }, d2, true)
    | .error _ => ({ message := "Failed to resize inline picture.", isError := true }, d, true)

/-! ## The automation handle manager (word-service.ts 36-67)

`getWordApplication` holds a single nullable field `wordApp`.  The external
automation layer's behaviour during one call is abstracted as an environment:
whether probing a held handle (reading `Visible`, then `Documents` and its
`Count`) succeeds, the result of `new WinaxObject("Word.Application", ...)`
(`none` meaning the constructor throws), and whether the subsequent
`Visible = true` property write succeeds.  Handles are identified by numbers.
The run is modelled together with the list of successive assignments to the
`wordApp` field, so that the order of discarding and re-creating is visible. -/

/-- The underlying cause wrapped by the initialization error. -/
inductive CreateFailure where
  | constructorThrew
  | visibleSetThrew
deriving Repr, DecidableEq

/-- The error `getWordApplication` throws when a fresh instance cannot be
obtained, wrapping the underlying cause. -/
inductive InitErr where
  | initializationError (cause : CreateFailure)
deriving Repr, DecidableEq

/-- The manager's state: the single `wordApp` field. -/
structure AppState where
  wordApp : Option Nat
deriving Repr, DecidableEq

/-- The external automation layer's behaviour for one call. -/
structure AutomationEnv where
  probeOk : Nat → Bool
  createResult : Option Nat
  visibleOk : Nat → Bool

/-- The creation block of `getWordApplication` (word-service.ts 55-67):
`this.wordApp = new WinaxObject(...)`, then `this.wordApp.Visible = true`, then
return the handle; the `catch` re-throws as the initialization error without
touching `this.wordApp`.  `tr` accumulates the assignments made to the field so
far; the constructor's assignment is recorded when it succeeds. -/
def acquireNewInstance (env : AutomationEnv) (st : AppState)
    (tr : List (Option Nat)) : Except InitErr Nat × AppState × List (Option Nat) :=
  match env.createResult with
  | none => (.error (.initializationError .constructorThrew), st, tr)
  | some hNew =>
      let st2 : AppState := { wordApp := some hNew }
      let tr2 := tr ++ [some hNew]
      if env.visibleOk hNew then (.ok hNew, st2, tr2)
      else (.error (.initializationError .visibleSetThrew), st2, tr2)

/-- word-service.ts `getWordApplication`: if a handle is held, probe it (read
`Visible`, `Documents`, `Documents.Count`); a successful probe returns the held
handle unchanged; a failing probe assigns `this.wordApp = null` and falls
through to the creation block, as does the no-handle case.  Returns the result,
the final state, and the list of assignments made to `wordApp`. -/
def getWordApplication (env : AutomationEnv) (st : AppState) :
    Except InitErr Nat × AppState × List (Option Nat) :=
  match st.wordApp with
  | some h =>
      if env.probeOk h then (.ok h, st, [])
      else acquireNewInstance env { wordApp := none } [none]
  | none => acquireNewInstance env st []

/-! ## Concrete fixtures used by counterexamples and witnesses -/

/-- A document holding one 2-by-2 table, one section whose primary header and
footer are active, and one paragraph starting at offset 0. -/
def docTable22 : WDoc :=
  { text := [], selStart := 0, fontUnderline := 0,
    tables := [⟨[["a", "b"], ["c", "d"]]⟩], shapes := [],
    sections := [⟨[true, false, false], [true, false, false]⟩],
    paragraphStarts := [0] }

/-- A document with text "abcd", the selection collapsed at offset 2, and no
tables, shapes or sections. -/
def docAbcd : WDoc :=
  { text := ['a', 'b', 'c', 'd'], selStart := 2, fontUnderline := 0,
    tables := [], shapes := [], sections := [], paragraphStarts := [] }

/-- A document holding one 10-by-10-point shape whose aspect-ratio lock is off
(msoFalse = 0). -/
def docShapeUnlocked : WDoc :=
  { text := [], selStart := 0, fontUnderline := 0, tables := [],
    shapes := [⟨10, 10, 0⟩], sections := [], paragraphStarts := [] }

/-- An environment where the constructor yields handle 7 but the `Visible`
write throws. -/
def envVisibleThrows : AutomationEnv :=
  { probeOk := fun _ => true, createResult := some 7, visibleOk := fun _ => false }

/-- An environment where probing any held handle throws and creation yields a
fresh handle 2 with a successful `Visible` write. -/
def envStaleProbe : AutomationEnv :=
  { probeOk := fun _ => false, createResult := some 2, visibleOk := fun _ => true }

/-! ## Theorems -/

/-- C6: for every invocation of toggleUnderline with style S: if the
selection's current underline style equals S it is set to none (0), otherwise
it is set to S; hence two successive calls with the same S starting from no
underline apply S and then revert to no underline, and a call with a different
style switches styles without toggling off. -/
theorem toggleUnderline_spec (S : Int) (d : WDoc) :
    (d.fontUnderline = S → (toggleUnderline S d).fontUnderline = 0)
  ∧ (d.fontUnderline ≠ S → (toggleUnderline S d).fontUnderline = S)
  ∧ (d.fontUnderline = 0 →
      (toggleUnderline S d).fontUnderline = S ∧
      (toggleUnderline S (toggleUnderline S d)).fontUnderline = 0)
  ∧ (∀ S2 : Int, S2 ≠ S → d.fontUnderline = S →
      (toggleUnderline S2 d).fontUnderline = S2) := by
  unfold toggleUnderline
  refine ⟨fun h => ?_, fun h => ?_, fun h => ⟨?_, ?_⟩, fun S2 h2 h => ?_⟩ <;>
    split_ifs <;> simp_all

/-- C6 witness: starting from no underline, toggling single underline (style 1)
applies it and a second toggle reverts to none; toggling a different style
(4, double) from style 1 switches to it. -/
theorem toggleUnderline_witness :
    (toggleUnderline 1 docAbcd).fontUnderline = 1
  ∧ (toggleUnderline 1 (toggleUnderline 1 docAbcd)).fontUnderline = 0
  ∧ (toggleUnderline 4 { docAbcd with fontUnderline := 1 }).fontUnderline = 4 :=
  ⟨(toggleUnderline_spec 1 docAbcd).2.2.1 rfl |>.1,
   (toggleUnderline_spec 1 docAbcd).2.2.1 rfl |>.2,
   (toggleUnderline_spec 1 { docAbcd with fontUnderline := 1 }).2.2.2 4 (by decide) rfl⟩

/-- C7: the find-and-replace tool's result is flagged as an error, without any
exception being thrown (the not-found path returns a result rather than
throwing), exactly when replaceAll was requested and the underlying
find-and-replace execution reports no match; with replaceAll = false a
not-found outcome is not error-flagged. -/
theorem findReplaceTool_errorFlag_spec (f r : List Char) (mc mw ra : Bool) (d : WDoc) :
    (findReplaceTool f r mc mw ra d).isError = true ↔
      (ra = true ∧ findAndReplace f r mc mw ra d = false) := by
  simp only [findReplaceTool]
  cases hf : findAndReplace f r mc mw ra d <;> cases ra <;> simp [hf]

/-- C10: invoking the word_setInlinePictureSize tool with both dimensions
non-positive returns a non-error result without calling the operation service
at all, for every shapeIndex (in range of the InlineShapes collection or not),
so no index validation runs and no out-of-range error can arise. -/
theorem setInlinePictureSizeTool_guard_spec (s : Int) (H W : ℚ) (l : Bool)
    (d : WDoc) (hH : H ≤ 0) (hW : W ≤ 0) :
    setInlinePictureSizeTool s H W l d =
      ({ message := "No size change specified (height and width were not positive values).",
         isError := false }, d, false) := by
  unfold setInlinePictureSizeTool
  rw [if_pos ⟨hH, hW⟩]

/-- C10 witness: shape index 999 with no shapes in the document, height 0 and
width -1: non-error result, document untouched, service never called. -/
theorem setInlinePictureSizeTool_guard_witness :
    setInlinePictureSizeTool 999 0 (-1) true docTable22 =
      ({ message := "No size change specified (height and width were not positive values).",
         isError := false }, docTable22, false) :=
  setInlinePictureSizeTool_guard_spec 999 0 (-1) true docTable22 (by norm_num) (by norm_num)

/-- C2 counterexample: with the constructor yielding handle 7 and the Visible
write throwing, getWordApplication throws the initialization error but the
stored handle is NOT left unset — it is left assigned to the new instance 7,
refuting "the stored application handle is left unset (null, never partially
assigned)". -/
theorem getWordApplication_partialAssign_counterexample :
    (getWordApplication envVisibleThrows ⟨none⟩).1 =
      .error (.initializationError .visibleSetThrew)
  ∧ (getWordApplication envVisibleThrows ⟨none⟩).2.1.wordApp = some 7
  ∧ some 7 ≠ (none : Option Nat) := ⟨rfl, rfl, by decide⟩

/-- C2 (amended): if the application constructor itself throws,
getWordApplication throws the initialization error wrapping that cause and the
stored handle remains null, so the next call retries creation from scratch; if
the constructor succeeds but the subsequent Visible write throws, the
initialization error is still thrown (wrapping that cause) but the stored
handle is left assigned to the newly created instance. -/
theorem getWordApplication_createFailure_spec (env : AutomationEnv)
    (st : AppState) (hnone : st.wordApp = none) :
    (env.createResult = none →
      getWordApplication env st =
        (.error (.initializationError .constructorThrew), st, []))
  ∧ (∀ hNew : Nat, env.createResult = some hNew → env.visibleOk hNew = false →
      getWordApplication env st =
        (.error (.initializationError .visibleSetThrew), ⟨some hNew⟩, [some hNew])) := by
  constructor
  · intro hc
    simp [getWordApplication, hnone, acquireNewInstance, hc]
  · intro hNew hc hv
    simp [getWordApplication, hnone, acquireNewInstance, hc, hv]

/-- C2 witness: constructor failure with no held handle leaves the handle
null and reports the initialization error. -/
theorem getWordApplication_createFailure_witness :
    getWordApplication ⟨fun _ => true, none, fun _ => true⟩ ⟨none⟩ =
      (.error (.initializationError .constructorThrew), ⟨none⟩, []) :=
  (getWordApplication_createFailure_spec ⟨fun _ => true, none, fun _ => true⟩
    ⟨none⟩ rfl).1 rfl

/-- C3: when the liveness probe of a held handle throws, the stale handle is
discarded (the field is assigned null) strictly before a new instance is
created, and that very next acquisition returns the freshly created handle —
never the stale one.  The manager's state is a single optional handle, so at
no point are two live handles held. -/
theorem getWordApplication_staleHandle_spec (env : AutomationEnv)
    (st : AppState) (h hNew : Nat) (hheld : st.wordApp = some h)
    (hprobe : env.probeOk h = false) (hcreate : env.createResult = some hNew)
    (hvis : env.visibleOk hNew = true) :
    getWordApplication env st = (.ok hNew, ⟨some hNew⟩, [none, some hNew])
  ∧ (hNew ≠ h → (getWordApplication env st).1 ≠ .ok h) := by
  have hmain : getWordApplication env st = (.ok hNew, ⟨some hNew⟩, [none, some hNew]) := by
    simp [getWordApplication, hheld, hprobe, acquireNewInstance, hcreate, hvis]
  exact ⟨hmain, fun hne => by rw [hmain]; simpa using hne⟩

/-- C3 witness: holding stale handle 1 whose probe throws, with creation
yielding handle 2: the call discards 1 (assigning null first), stores and
returns the fresh handle 2, and does not return the stale handle. -/
theorem getWordApplication_staleHandle_witness :
    getWordApplication envStaleProbe ⟨some 1⟩ = (.ok 2, ⟨some 2⟩, [none, some 2])
  ∧ (getWordApplication envStaleProbe ⟨some 1⟩).1 ≠ .ok 1 :=
  ⟨(getWordApplication_staleHandle_spec envStaleProbe ⟨some 1⟩ 1 2 rfl rfl rfl rfl).1,
   (getWordApplication_staleHandle_spec envStaleProbe ⟨some 1⟩ 1 2 rfl rfl rfl rfl).2
     (by decide)⟩

/-- C4: deleteText with count 0 issues no Selection call, mutates nothing and
reports success; with count k > 0 it issues exactly one forward delete of k
units; with count -k it first moves the selection start back k units and then
deletes k units forward, so on a collapsed selection (characters) the net
effect removes the k units ending at the original position. -/
theorem deleteText_spec (u : Int) (d : WDoc) (k : Nat) (hk : 0 < k)
    (hsel : k ≤ d.selStart) (hlen : d.selStart ≤ d.text.length) :
    deleteText 0 u d = d
  ∧ (deleteTextTool 0 u d).1.isError = false
  ∧ (deleteTextTool 0 u d).2 = d
  ∧ deleteTextCalls (k : Int) u = [.delete u k]
  ∧ deleteTextCalls (-(k : Int)) u = [.moveStart u (-(k : Int)), .delete u k]
  ∧ deleteText (k : Int) u d =
      { d with text := d.text.take d.selStart ++ d.text.drop (d.selStart + k) }
  ∧ deleteText (-(k : Int)) u d =
      { d with text := d.text.take (d.selStart - k) ++ d.text.drop d.selStart,
               selStart := d.selStart - k } := by
  have hpos : (0 : Int) < (k : Int) := by exact_mod_cast hk
  have h0 : deleteText 0 u d = d := by simp [deleteText, deleteTextCalls]
  have h3 : deleteTextCalls (k : Int) u = [.delete u k] := by
    simp [deleteTextCalls, hpos]
  have h4 : deleteTextCalls (-(k : Int)) u = [.moveStart u (-(k : Int)), .delete u k] := by
    have hn1 : ¬((0 : Int) < -(k : Int)) := by omega
    have hn2 : (-(k : Int)) < 0 := by omega
    simp [deleteTextCalls, hn1, hn2]
  have h5 : deleteText (k : Int) u d =
      { d with text := d.text.take d.selStart ++ d.text.drop (d.selStart + k) } := by
    rw [deleteText, h3]
    rfl
  have h6 : deleteText (-(k : Int)) u d =
      { d with text := d.text.take (d.selStart - k) ++ d.text.drop d.selStart,
               selStart := d.selStart - k } := by
    rw [deleteText, h4]
    simp only [List.foldl, applySelCall]
    have e1 : ((d.selStart : Int) + -(k : Int)).toNat = d.selStart - k := by omega
    rw [e1]
    have e2 : min (d.selStart - k) d.text.length = d.selStart - k := by omega
    rw [e2]
    have e3 : d.selStart - k + k = d.selStart := by omega
    rw [e3]
  exact ⟨h0, rfl, by simp [deleteTextTool, h0], h3, h4, h5, h6⟩

/-- C4 witness: on text "abcd" with the selection collapsed at offset 2,
deleteText(-1, character) removes the character ending at the original
position, leaving "acd" with the selection at offset 1. -/
theorem deleteText_spec_witness :
    deleteText (-(1 : Int)) 1 docAbcd =
      { docAbcd with text := ['a', 'c', 'd'], selStart := 1 } := by
  have h := (deleteText_spec 1 docAbcd 1 (by decide) (by decide)
    (by decide)).2.2.2.2.2.2
  simpa using h

/-- C5: setInlinePictureSize with both dimensions positive and the aspect lock
requested compares the requested-to-original ratios of the resolved shape; when
W / Wo > H / Ho it assigns Width := W and does not assign Height (left for the
external model to auto-adjust), otherwise it assigns Height := H and does not
assign Width; a valid shape index makes the operation perform exactly these
assignments on the indexed shape. -/
theorem setInlinePictureSize_lock_spec (H W : ℚ) (sh : WShape)
    (hH : 0 < H) (hW : 0 < W) (hHo : 0 < sh.height) (hWo : 0 < sh.width) :
    (W / sh.width > H / sh.height →
      setShapeSizeAssigns H W true sh = [.lockAR (-1), .width W])
  ∧ (¬ W / sh.width > H / sh.height →
      setShapeSizeAssigns H W true sh = [.lockAR (-1), .height H])
  ∧ (∀ (d : WDoc) (s : Int), 1 ≤ s → s ≤ (d.shapes.length : Int) →
      d.shapeAt s = sh →
      setInlinePictureSize s H W true d =
        .ok { d with shapes := d.shapes.set (s.toNat - 1)
                       ((setShapeSizeAssigns H W true sh).foldl WShape.applyAssign sh) }) := by
  refine ⟨fun hcmp => ?_, fun hcmp => ?_, fun d s hs1 hs2 hsh => ?_⟩
  · simp [setShapeSizeAssigns, hH, hW, hcmp]
  · simp [setShapeSizeAssigns, hH, hW, hcmp]
  · have hns : ¬(s ≤ 0 ∨ s > (d.shapes.length : Int)) := by omega
    simp [setInlinePictureSize, wrapErr, hns, hsh]

/-- C5 witness: a 10-by-20-point shape resized to height 5, width 40 with the
lock on: the width ratio 2 beats the height ratio 1/2, so exactly
LockAspectRatio := msoTrue and Width := 40 are assigned. -/
theorem setInlinePictureSize_lock_witness :
    setShapeSizeAssigns 5 40 true ⟨10, 20, -1⟩ = [.lockAR (-1), .width 40] :=
  (setInlinePictureSize_lock_spec 5 40 ⟨10, 20, -1⟩ (by norm_num) (by norm_num)
    (by norm_num) (by norm_num)).1 (by norm_num)

/-- C9 counterexample: on a document whose only shape has its aspect-ratio lock
off, calling setInlinePictureSize with neither dimension positive (and the lock
requested) still mutates the shape: its LockAspectRatio property is assigned
msoTrue, refuting "no change occurs to the shape — every property of the shape,
including its size and aspect-ratio lock, is left unchanged". -/
theorem setInlinePictureSize_lockAssign_counterexample :
    setInlinePictureSize 1 0 0 true docShapeUnlocked =
      .ok { docShapeUnlocked with shapes := [⟨10, 10, -1⟩] }
  ∧ ({ docShapeUnlocked with shapes := [⟨10, 10, -1⟩] } : WDoc) ≠ docShapeUnlocked :=
  ⟨rfl, by decide⟩

/-- C9 (amended): for a valid shape index the aspect-ratio lock property is
always assigned (msoTrue or msoFalse per the flag) before the size logic; aside
from that, if exactly one of the dimensions is positive only that size
dimension is assigned, and if neither is positive no size dimension is
assigned, the shape's height and width remaining unchanged. -/
theorem setShapeSizeAssigns_frame_spec (H W : ℚ) (l : Bool) (sh : WShape) :
    (0 < H → W ≤ 0 →
      setShapeSizeAssigns H W l sh = [.lockAR (if l then -1 else 0), .height H])
  ∧ (H ≤ 0 → 0 < W →
      setShapeSizeAssigns H W l sh = [.lockAR (if l then -1 else 0), .width W])
  ∧ (H ≤ 0 → W ≤ 0 →
      setShapeSizeAssigns H W l sh = [.lockAR (if l then -1 else 0)]
    ∧ ((setShapeSizeAssigns H W l sh).foldl WShape.applyAssign sh).height = sh.height
    ∧ ((setShapeSizeAssigns H W l sh).foldl WShape.applyAssign sh).width = sh.width) := by
  refine ⟨fun hH hW => ?_, fun hH hW => ?_, fun hH hW => ?_⟩
  · have hnW : ¬(0 : ℚ) < W := not_lt.mpr hW
    simp [setShapeSizeAssigns, hH, hnW]
  · have hnH : ¬(0 : ℚ) < H := not_lt.mpr hH
    simp [setShapeSizeAssigns, hnH, hW]
  · have hnW : ¬(0 : ℚ) < W := not_lt.mpr hW
    have hnH : ¬(0 : ℚ) < H := not_lt.mpr hH
    have ha : setShapeSizeAssigns H W l sh = [.lockAR (if l then -1 else 0)] := by
      simp [setShapeSizeAssigns, hnH, hnW]
    refine ⟨ha, ?_, ?_⟩ <;> rw [ha] <;> rfl

/-- C9 witness: height -1, width 0, lock off, on a 3-by-4 shape: only
LockAspectRatio := msoFalse is assigned and the sizes are unchanged. -/
theorem setShapeSizeAssigns_frame_witness :
    setShapeSizeAssigns (-1) 0 false ⟨3, 4, -1⟩ = [.lockAR 0]
  ∧ ((setShapeSizeAssigns (-1) 0 false ⟨3, 4, -1⟩).foldl WShape.applyAssign
      ⟨3, 4, -1⟩).height = (3 : ℚ)
  ∧ ((setShapeSizeAssigns (-1) 0 false ⟨3, 4, -1⟩).foldl WShape.applyAssign
      ⟨3, 4, -1⟩).width = (4 : ℚ) :=
  (setShapeSizeAssigns_frame_spec (-1) 0 false ⟨3, 4, -1⟩).2.2 (by norm_num)
    (by norm_num)

/-- C1 counterexample: on a document with one 2-by-2 table, getTableCell with
table index 1 and row index 5 — a row index outside [1, 2] — fails, but with
the generic wrapping of the external model's error, not with one of the service
code's out-of-range errors: the row index is never validated by the code,
refuting the claim that every 1-based index argument out of range fails with an
out-of-range error. -/
theorem getTableCell_rowIndex_counterexample :
    getTableCell 1 5 1 docTable22 =
      .error (.wrapped "getTableCell" (.comErr comCellMsg))
  ∧ (WErr.wrapped "getTableCell" (.comErr comCellMsg)).isOutOfRange = false :=
  ⟨rfl, rfl⟩

/-- C1 (amended): the indices the service code validates — the table index in
getTableCell / setTableCellText / insertTableRow / insertTableColumn /
applyTableAutoFormat against Tables.Count, the insert-before row and column
positions against [1, count + 1], the inline-shape index against
InlineShapes.Count, the section index against Sections.Count, and the
paragraph index against Paragraphs.Count — pass when in range (proceeding to
the operation or to its next validation step) and, when out of range, fail
with the code's out-of-range error before any mutation (no document state is
produced on the error path).  The row and column cell indices of
getTableCell / setTableCellText are NOT validated by the code: out of range
they fail before any mutation, but with a generic wrapped external-model error
rather than an out-of-range error. -/
theorem index_validation_spec (d : WDoc) (t r c i j s sec ty p : Int)
    (txt : String) (H W : ℚ) (l isHeader : Bool) (fmt : String ⊕ Int)
    (fl : Option Int) :
    ((t ≤ 0 ∨ t > (d.tables.length : Int)) →
        getTableCell t r c d = .error (.wrapped "getTableCell" (.outOfRange "Table" t))
      ∧ setTableCellText t r c txt d =
          .error (.wrapped "setTableCellText"
            (.wrapped "getTableCell" (.outOfRange "Table" t)))
      ∧ insertTableRow t (some i) d =
          .error (.wrapped "insertTableRow" (.outOfRange "Table" t))
      ∧ insertTableColumn t (some j) d =
          .error (.wrapped "insertTableColumn" (.outOfRange "Table" t))
      ∧ applyTableAutoFormat t fmt fl d =
          .error (.wrapped "applyTableAutoFormat" (.outOfRange "Table" t)))
  ∧ (1 ≤ t → t ≤ (d.tables.length : Int) →
        ((i ≤ 0 ∨ i > ((d.tableAt t).rowCount : Int) + 1) →
          insertTableRow t (some i) d =
            .error (.wrapped "insertTableRow" (.outOfRange "Row" i)))
      ∧ (1 ≤ i → i ≤ ((d.tableAt t).rowCount : Int) + 1 →
          ∃ d2, insertTableRow t (some i) d = .ok d2)
      ∧ ((j ≤ 0 ∨ j > ((d.tableAt t).colCount : Int) + 1) →
          insertTableColumn t (some j) d =
            .error (.wrapped "insertTableColumn" (.outOfRange "Column" j)))
      ∧ (1 ≤ j → j ≤ ((d.tableAt t).colCount : Int) + 1 →
          ∃ d3, insertTableColumn t (some j) d = .ok d3)
      ∧ applyTableAutoFormat t fmt fl d = .ok (fmt, fl.getD defaultApplyFlags))
  ∧ ((s ≤ 0 ∨ s > (d.shapes.length : Int)) →
      setInlinePictureSize s H W l d =
        .error (.wrapped "setInlinePictureSize" (.outOfRange "InlineShape" s)))
  ∧ (1 ≤ s → s ≤ (d.shapes.length : Int) →
      ∃ d4, setInlinePictureSize s H W l d = .ok d4)
  ∧ (1 ≤ t → t ≤ (d.tables.length : Int) →
      1 ≤ r → r ≤ ((d.tableAt t).rows.length : Int) →
      1 ≤ c → c ≤ (((d.tableAt t).rows.getD (r.toNat - 1) []).length : Int) →
      getTableCell t r c d = .ok (t.toNat - 1, r.toNat - 1, c.toNat - 1))
  ∧ (1 ≤ t → t ≤ (d.tables.length : Int) →
      (r ≤ 0 ∨ r > ((d.tableAt t).rows.length : Int)) →
      getTableCell t r c d = .error (.wrapped "getTableCell" (.comErr comCellMsg))
    ∧ (WErr.wrapped "getTableCell" (.comErr comCellMsg)).isOutOfRange = false)
  ∧ (1 ≤ t → t ≤ (d.tables.length : Int) →
      1 ≤ r → r ≤ ((d.tableAt t).rows.length : Int) →
      (c ≤ 0 ∨ c > (((d.tableAt t).rows.getD (r.toNat - 1) []).length : Int)) →
      getTableCell t r c d = .error (.wrapped "getTableCell" (.comErr comCellMsg)))
  ∧ ((sec ≤ 0 ∨ sec > (d.sections.length : Int)) →
      getHeaderFooter sec ty isHeader d =
        .error (.wrapped "getHeaderFooter" (.outOfRange "Section" sec)))
  ∧ (1 ≤ sec → sec ≤ (d.sections.length : Int) →
        ((ty < 1 ∨ ty > 3) →
          getHeaderFooter sec ty isHeader d =
            .error (.wrapped "getHeaderFooter" (.otherThrow invalidHFTypeMsg)))
      ∧ (1 ≤ ty → ty ≤ 3 →
          ((if isHeader then (d.sections.getD (sec.toNat - 1) ⟨[], []⟩).headerExists
            else (d.sections.getD (sec.toNat - 1) ⟨[], []⟩).footerExists).getD
              (ty.toNat - 1) false = true →
            getHeaderFooter sec ty isHeader d = .ok (sec.toNat - 1, ty.toNat - 1))
        ∧ ((if isHeader then (d.sections.getD (sec.toNat - 1) ⟨[], []⟩).headerExists
            else (d.sections.getD (sec.toNat - 1) ⟨[], []⟩).footerExists).getD
              (ty.toNat - 1) false = false →
            getHeaderFooter sec ty isHeader d =
              .error (.wrapped "getHeaderFooter" (.otherThrow hfMissingMsg)))))
  ∧ ((p ≤ 0 ∨ p > (d.paragraphStarts.length : Int)) →
      selectParagraph p d =
        .error (.wrapped "selectParagraph" (.outOfRange "Paragraph" p)))
  ∧ (1 ≤ p → p ≤ (d.paragraphStarts.length : Int) →
      selectParagraph p d =
        .ok { d with selStart := d.paragraphStarts.getD (p.toNat - 1) 0 }) := by
  refine ⟨fun ht => ⟨?_, ?_, ?_, ?_, ?_⟩,
    fun ht1 ht2 => ⟨fun hi => ?_, fun hi1 hi2 => ?_, fun hj => ?_,
      fun hj1 hj2 => ?_, ?_⟩,
    fun hs => ?_, fun hs1 hs2 => ?_, fun ht1 ht2 hr1 hr2 hc1 hc2 => ?_,
    fun ht1 ht2 hr => ⟨?_, rfl⟩, fun ht1 ht2 hr1 hr2 hc => ?_,
    fun hsec => ?_, fun hsec1 hsec2 => ⟨fun hty => ?_,
      fun hty1 hty2 => ⟨fun hex => ?_, fun hex => ?_⟩⟩,
    fun hp => ?_, fun hp1 hp2 => ?_⟩
  · simp [getTableCell, wrapErr, ht]
  · have hg : getTableCell t r c d =
        .error (.wrapped "getTableCell" (.outOfRange "Table" t)) := by
      simp [getTableCell, wrapErr, ht]
    simp [setTableCellText, wrapErr, hg]
  · simp [insertTableRow, wrapErr, ht]
  · simp [insertTableColumn, wrapErr, ht]
  · simp [applyTableAutoFormat, wrapErr, ht]
  · have hnt : ¬(t ≤ 0 ∨ t > (d.tables.length : Int)) := by omega
    simp [insertTableRow, wrapErr, hnt, hi]
  · have hnt : ¬(t ≤ 0 ∨ t > (d.tables.length : Int)) := by omega
    have hni : ¬(i ≤ 0 ∨ i > ((d.tableAt t).rowCount : Int) + 1) := by omega
    refine ⟨{ d with tables := d.tables.set (t.toNat - 1)
                       ((d.tableAt t).rowsAdd
                         (if i ≤ ((d.tableAt t).rowCount : Int) then some i.toNat
                          else none)) }, ?_⟩
    simp only [insertTableRow]
    rw [if_neg hnt, if_neg hni]
    rfl
  · have hnt : ¬(t ≤ 0 ∨ t > (d.tables.length : Int)) := by omega
    simp [insertTableColumn, wrapErr, hnt, hj]
  · have hnt : ¬(t ≤ 0 ∨ t > (d.tables.length : Int)) := by omega
    have hnj : ¬(j ≤ 0 ∨ j > ((d.tableAt t).colCount : Int) + 1) := by omega
    refine ⟨{ d with tables := d.tables.set (t.toNat - 1)
                       ((d.tableAt t).colsAdd
                         (if j ≤ ((d.tableAt t).colCount : Int) then some j.toNat
                          else none)) }, ?_⟩
    simp only [insertTableColumn]
    rw [if_neg hnt, if_neg hnj]
    rfl
  · have hnt : ¬(t ≤ 0 ∨ t > (d.tables.length : Int)) := by omega
    simp only [applyTableAutoFormat]
    rw [if_neg hnt]
    rfl
  · simp [setInlinePictureSize, wrapErr, hs]
  · have hns : ¬(s ≤ 0 ∨ s > (d.shapes.length : Int)) := by omega
    refine ⟨{ d with shapes := d.shapes.set (s.toNat - 1)
                       ((setShapeSizeAssigns H W l (d.shapeAt s)).foldl
                         WShape.applyAssign (d.shapeAt s)) }, ?_⟩
    simp only [setInlinePictureSize]
    rw [if_neg hns]
    rfl
  · have hnt : ¬(t ≤ 0 ∨ t > (d.tables.length : Int)) := by omega
    have hcell : 1 ≤ r ∧ r ≤ ((d.tableAt t).rows.length : Int) ∧ 1 ≤ c ∧
        c ≤ (((d.tableAt t).rows.getD (r.toNat - 1) []).length : Int) :=
      ⟨hr1, hr2, hc1, hc2⟩
    simp only [getTableCell, WTable.cell]
    rw [if_neg hnt, if_pos hcell]
    rfl
  · have hnt : ¬(t ≤ 0 ∨ t > (d.tables.length : Int)) := by omega
    have hncell : ¬(1 ≤ r ∧ r ≤ ((d.tableAt t).rows.length : Int) ∧ 1 ≤ c ∧
        c ≤ (((d.tableAt t).rows.getD (r.toNat - 1) []).length : Int)) := by omega
    simp only [getTableCell, WTable.cell]
    rw [if_neg hnt, if_neg hncell]
    rfl
  · have hnt : ¬(t ≤ 0 ∨ t > (d.tables.length : Int)) := by omega
    have hncell : ¬(1 ≤ r ∧ r ≤ ((d.tableAt t).rows.length : Int) ∧ 1 ≤ c ∧
        c ≤ (((d.tableAt t).rows.getD (r.toNat - 1) []).length : Int)) := by omega
    simp only [getTableCell, WTable.cell]
    rw [if_neg hnt, if_neg hncell]
    rfl
  · simp [getHeaderFooter, wrapErr, hsec]
  · have hnsec : ¬(sec ≤ 0 ∨ sec > (d.sections.length : Int)) := by omega
    simp only [getHeaderFooter]
    rw [if_neg hnsec, if_pos hty]
    rfl
  · have hnsec : ¬(sec ≤ 0 ∨ sec > (d.sections.length : Int)) := by omega
    have hnty : ¬(ty < 1 ∨ ty > 3) := by omega
    simp only [getHeaderFooter]
    rw [if_neg hnsec, if_neg hnty, if_pos hex]
    rfl
  · have hnsec : ¬(sec ≤ 0 ∨ sec > (d.sections.length : Int)) := by omega
    have hnty : ¬(ty < 1 ∨ ty > 3) := by omega
    simp only [getHeaderFooter]
    rw [if_neg hnsec, if_neg hnty, if_neg (by rw [hex]; exact Bool.false_ne_true)]
    rfl
  · simp [selectParagraph, wrapErr, hp]
  · have hnp : ¬(p ≤ 0 ∨ p > (d.paragraphStarts.length : Int)) := by omega
    simp only [selectParagraph]
    rw [if_neg hnp]
    rfl

/-- C1 (amended) witness: on the fixture document (one 2-by-2 table, one
section with the primary header active, one paragraph), table index 3 is
rejected with the out-of-range error, insert-before row position 4 and column
position 4 are rejected with the out-of-range error, in-range indices succeed
(cell (2,2), the auto-format call with the default flags, the primary header of
section 1, paragraph 1), section index 2 and paragraph index 2 are rejected
with the out-of-range error, and the unvalidated row index 5 and column index
9 produce the generic (non-out-of-range) wrapped error. -/
theorem index_validation_witness :
    getTableCell 3 1 1 docTable22 =
      .error (.wrapped "getTableCell" (.outOfRange "Table" 3))
  ∧ insertTableRow 1 (some 4) docTable22 =
      .error (.wrapped "insertTableRow" (.outOfRange "Row" 4))
  ∧ insertTableColumn 1 (some 4) docTable22 =
      .error (.wrapped "insertTableColumn" (.outOfRange "Column" 4))
  ∧ getTableCell 1 2 2 docTable22 = .ok (0, 1, 1)
  ∧ applyTableAutoFormat 1 (Sum.inl "Table Grid") none docTable22 =
      .ok (Sum.inl "Table Grid", defaultApplyFlags)
  ∧ getTableCell 1 5 1 docTable22 =
      .error (.wrapped "getTableCell" (.comErr comCellMsg))
  ∧ getTableCell 1 1 9 docTable22 =
      .error (.wrapped "getTableCell" (.comErr comCellMsg))
  ∧ getHeaderFooter 2 1 true docTable22 =
      .error (.wrapped "getHeaderFooter" (.outOfRange "Section" 2))
  ∧ getHeaderFooter 1 1 true docTable22 = .ok (0, 0)
  ∧ selectParagraph 2 docTable22 =
      .error (.wrapped "selectParagraph" (.outOfRange "Paragraph" 2))
  ∧ selectParagraph 1 docTable22 = .ok { docTable22 with selStart := 0 } :=
  ⟨((index_validation_spec docTable22 3 1 1 1 1 1 1 1 1 "" 0 0 true true
      (Sum.inl "Table Grid") none).1 (by decide)).1,
   ((index_validation_spec docTable22 1 1 1 4 1 1 1 1 1 "" 0 0 true true
      (Sum.inl "Table Grid") none).2.1 (by decide) (by decide)).1 (by decide),
   (((index_validation_spec docTable22 1 1 1 1 4 1 1 1 1 "" 0 0 true true
      (Sum.inl "Table Grid") none).2.1 (by decide) (by decide)).2.2.1 (by decide)),
   (index_validation_spec docTable22 1 2 2 1 1 1 1 1 1 "" 0 0 true true
      (Sum.inl "Table Grid") none).2.2.2.2.1
      (by decide) (by decide) (by decide) (by decide) (by decide) (by decide),
   (((index_validation_spec docTable22 1 1 1 1 1 1 1 1 1 "" 0 0 true true
      (Sum.inl "Table Grid") none).2.1 (by decide) (by decide)).2.2.2.2),
   ((index_validation_spec docTable22 1 5 1 1 1 1 1 1 1 "" 0 0 true true
      (Sum.inl "Table Grid") none).2.2.2.2.2.1 (by decide) (by decide)
      (by decide)).1,
   ((index_validation_spec docTable22 1 1 9 1 1 1 1 1 1 "" 0 0 true true
      (Sum.inl "Table Grid") none).2.2.2.2.2.2.1 (by decide) (by decide)
      (by decide) (by decide) (by decide)),
   ((index_validation_spec docTable22 1 1 1 1 1 1 2 1 1 "" 0 0 true true
      (Sum.inl "Table Grid") none).2.2.2.2.2.2.2.1 (by decide)),
   ((((index_validation_spec docTable22 1 1 1 1 1 1 1 1 1 "" 0 0 true true
      (Sum.inl "Table Grid") none).2.2.2.2.2.2.2.2.1 (by decide) (by decide)).2
      (by decide) (by decide)).1 (by decide)),
   ((index_validation_spec docTable22 1 1 1 1 1 1 1 1 2 "" 0 0 true true
      (Sum.inl "Table Grid") none).2.2.2.2.2.2.2.2.2.1 (by decide)),
   ((index_validation_spec docTable22 1 1 1 1 1 1 1 1 1 "" 0 0 true true
      (Sum.inl "Table Grid") none).2.2.2.2.2.2.2.2.2.2 (by decide) (by decide))⟩

/-- C8: with a valid table index, insertTableRow with beforeRowIndex = N + 1
(N the current row count) appends a row and is exactly the call with
beforeRowIndex omitted, which appends; and with beforeRowIndex in [1, N] the
new row is inserted before the row at that 1-based position. -/
theorem insertTableRow_append_spec (d : WDoc) (t : Int) (h1 : 1 ≤ t)
    (h2 : t ≤ (d.tables.length : Int)) :
    insertTableRow t (some (((d.tableAt t).rowCount : Int) + 1)) d
      = insertTableRow t none d
  ∧ insertTableRow t none d =
      .ok { d with tables := d.tables.set (t.toNat - 1) ((d.tableAt t).rowsAdd none) }
  ∧ (∀ j : Int, 1 ≤ j → j ≤ ((d.tableAt t).rowCount : Int) →
      insertTableRow t (some j) d =
        .ok { d with tables := d.tables.set (t.toNat - 1)
                       ⟨(d.tableAt t).rows.take (j.toNat - 1) ++
                         List.replicate (d.tableAt t).colCount "" ::
                           (d.tableAt t).rows.drop (j.toNat - 1)⟩ }) := by
  have hnt : ¬(t ≤ 0 ∨ t > (d.tables.length : Int)) := by omega
  refine ⟨?_, ?_, fun j hj1 hj2 => ?_⟩
  · have hc1 : ¬(((d.tableAt t).rowCount : Int) + 1 ≤ 0 ∨
        ((d.tableAt t).rowCount : Int) + 1 > ((d.tableAt t).rowCount : Int) + 1) := by
      omega
    have hc2 : ¬(((d.tableAt t).rowCount : Int) + 1 ≤ ((d.tableAt t).rowCount : Int)) := by
      omega
    simp only [insertTableRow]
    rw [if_neg hnt, if_neg hc1, if_neg hc2, if_neg hnt]
  · simp [insertTableRow, wrapErr, hnt]
  · have hc3 : ¬(j ≤ 0 ∨ j > ((d.tableAt t).rowCount : Int) + 1) := by omega
    have hc4 : j ≤ ((d.tableAt t).rowCount : Int) := hj2
    simp [insertTableRow, wrapErr, hnt, hc3, hc4, WTable.rowsAdd]

/-- C8 witness: on the one-table 2-by-2 document, inserting before row 3
(= row count + 1) equals the append call, and inserting before row 1 places the
new empty row first. -/
theorem insertTableRow_append_witness :
    insertTableRow 1 (some 3) docTable22 = insertTableRow 1 none docTable22
  ∧ insertTableRow 1 (some 1) docTable22 =
      .ok { docTable22 with
              tables := [⟨[["", ""], ["a", "b"], ["c", "d"]]⟩] } := by
  constructor
  · have h := (insertTableRow_append_spec docTable22 1 (by decide) (by decide)).1
    simpa using h
  · have h := (insertTableRow_append_spec docTable22 1 (by decide) (by decide)).2.2
      1 (by decide) (by decide)
    simpa using h

end MsWord
